import Mathlib

/-!
# Verification of the bespoke logic of `eval-ner_nli/run_ner.py`

A shallow embedding, in Lean 4, of the custom data-processing logic of the
NER fine-tuning driver script:

* `tokenize_and_align_labels` — subword/word label alignment (lines 591-631);
* `get_label_list` and the `label_to_id` dictionary (lines 343-358);
* token/tag column-name resolution (lines 327-339);
* `compute_metrics` — sentinel filtering and output-shape flattening
  (lines 684-714);
* the `"embedding_"` freeze loop over named parameters (lines 447-449 and
  513-515);
* `DataTrainingArguments.__post_init__` validation (lines 225-235) and the
  ordering of the fatal configuration checks inside `main` relative to
  model loading (lines 302-676).

External library behaviour (tokenizer, model hub, trainer, seqeval scorer)
is abstracted: tokenizations appear as word-index maps, named parameters as
(name, requires_grad) pairs, scorer results as a key/value list, and the
external calls of `main` as always-succeeding pipeline stages.
-/

namespace RunNer

/-! ## Label alignment (`tokenize_and_align_labels`, lines 601-619)

The tokenizer is external; its output relevant to the alignment loop is
`word_ids`: for every subword position either `some w` (the index of the
source word) or `none` (special/padding tokens).  `label` is the example's
word-level tag list and `label_to_id` the tag→integer dictionary; the
Python subscript `label[word_idx]` is modelled with `List.getD` (the
claims' inputs keep every word index below `label.length`, where the
default is never consulted). -/

/-- The inner loop of `tokenize_and_align_labels`: `previous_word_idx`
starts as `None`, and for each `word_idx` in `word_ids` the emitted label
is `-100` for `None`, the word's label when `word_idx != previous_word_idx`,
and otherwise the word's label or `-100` according to `label_all_tokens`;
`previous_word_idx` is updated to `word_idx` at every iteration. -/
def alignGo (labelAllTokens : Bool) (labelToId : String → Int)
    (label : List String) : Option Nat → List (Option Nat) → List Int
  | _, [] => []
  | prev, w :: ws =>
    (match w with
     | none => -100
     | some idx =>
       if some idx ≠ prev then labelToId (label.getD idx "")
       else if labelAllTokens then labelToId (label.getD idx "") else -100)
      :: alignGo labelAllTokens labelToId label w ws

/-- `tokenize_and_align_labels` restricted to one example: the aligned
label sequence computed from the example's word-index map. -/
def alignLabels (labelAllTokens : Bool) (labelToId : String → Int)
    (label : List String) (wordIds : List (Option Nat)) : List Int :=
  alignGo labelAllTokens labelToId label none wordIds

theorem alignGo_length (b : Bool) (f : String → Int) (label : List String) :
    ∀ (prev : Option Nat) (ws : List (Option Nat)),
      (alignGo b f label prev ws).length = ws.length := by
  intro prev ws
  induction ws generalizing prev with
  | nil => rfl
  | cons w ws ih => simp [alignGo, ih]

/-- The value the alignment loop emits at position `i`, phrased against the
word-index map itself: the tracker seen at position `i` is the initial
value for `i = 0` and the raw word index of position `i - 1` otherwise. -/
theorem alignGo_getD (b : Bool) (f : String → Int) (label : List String) :
    ∀ (ws : List (Option Nat)) (prev : Option Nat) (i : Nat), i < ws.length →
      (alignGo b f label prev ws).getD i 0 =
        match ws.getD i none with
        | none => -100
        | some idx =>
          if some idx ≠ (if i = 0 then prev else ws.getD (i - 1) none) then
            f (label.getD idx "")
          else if b then f (label.getD idx "") else -100 := by
  intro ws
  induction ws with
  | nil => intro prev i h; simp at h
  | cons w ws ih =>
    intro prev i h
    cases i with
    | zero => cases w <;> simp [alignGo]
    | succ i =>
      have hi : i < ws.length := by simpa using h
      have := ih w i hi
      cases i with
      | zero =>
        simpa [alignGo, List.getD] using this
      | succ j =>
        simpa [alignGo, List.getD] using this

/-- C1: for every example whose word-index map has in-range word indices,
`tokenize_and_align_labels` emits exactly one label per subword position,
in subword order; a `none` position gets `-100`, a position whose word
index differs from the previous position's word index (position `0`'s
previous being the `none` sentinel, since the tracker is updated at every
position) gets `label_to_id[tag[word_index]]`, and a continuation position
gets that label when `label_all_tokens` is set and `-100` otherwise. -/
theorem align_labels_per_position (b : Bool) (f : String → Int)
    (label : List String) (wordIds : List (Option Nat))
    (_hW : ∀ idx ∈ wordIds.reduceOption, idx < label.length) :
    (alignLabels b f label wordIds).length = wordIds.length ∧
    ∀ i, i < wordIds.length →
      (alignLabels b f label wordIds).getD i 0 =
        match wordIds.getD i none with
        | none => -100
        | some idx =>
          if i = 0 ∨ wordIds.getD (i - 1) none ≠ some idx then
            f (label.getD idx "")
          else if b then f (label.getD idx "") else -100 := by
  clear _hW
  refine ⟨alignGo_length b f label none wordIds, ?_⟩
  intro i h
  have key := alignGo_getD b f label wordIds none i h
  cases hw : wordIds.getD i none with
  | none => rw [alignLabels, key, hw]
  | some idx =>
    rw [alignLabels, key, hw]
    by_cases h0 : i = 0
    · subst h0
      simp
    · dsimp only
      rw [if_neg h0]
      by_cases hne : wordIds.getD (i - 1) none = some idx
      · have l1 : ¬(some idx ≠ wordIds.getD (i - 1) none) :=
          fun hcon => hcon hne.symm
        have l2 : ¬(i = 0 ∨ wordIds.getD (i - 1) none ≠ some idx) :=
          fun hcon => hcon.elim h0 (fun hne2 => hne2 hne)
        rw [if_neg l1, if_neg l2]
      · have l1 : some idx ≠ wordIds.getD (i - 1) none :=
          fun hh => hne hh.symm
        have l2 : i = 0 ∨ wordIds.getD (i - 1) none ≠ some idx := Or.inr hne
        rw [if_pos l1, if_pos l2]

/-- Witness for `align_labels_per_position` at the spec's end-to-end
example (`[0,1,1,2,3]` plus one padding position). -/
theorem align_labels_per_position_witness :
    (alignLabels false (fun s => (s.length : Int)) ["B-LOC", "I-LOC", "O", "O"]
      [some 0, some 1, some 1, some 2, some 3, none]).length = 6 :=
  (align_labels_per_position false (fun s => (s.length : Int))
    ["B-LOC", "I-LOC", "O", "O"]
    [some 0, some 1, some 1, some 2, some 3, none] (by decide)).1

/-- C2: at any position that is the first occurrence of its word index in
the word-index map (contiguity not assumed), the aligned label is the
word's tag id, whatever the `label_all_tokens` policy. -/
theorem align_labels_first_occurrence (b : Bool) (f : String → Int)
    (label : List String) (wordIds : List (Option Nat)) (i idx : Nat)
    (_hW : ∀ k ∈ wordIds.reduceOption, k < label.length)
    (hi : i < wordIds.length)
    (hw : wordIds.getD i none = some idx)
    (hfirst : ∀ j, j < i → wordIds.getD j none ≠ some idx) :
    (alignLabels b f label wordIds).getD i 0 = f (label.getD idx "") := by
  clear _hW
  have key := alignGo_getD b f label wordIds none i hi
  rw [alignLabels, key, hw]
  by_cases h0 : i = 0
  · subst h0; simp
  · have hprev : wordIds.getD (i - 1) none ≠ some idx :=
      hfirst (i - 1) (by omega)
    dsimp only
    rw [if_neg h0, if_pos (fun hh => hprev hh.symm)]

/-- Witness for `align_labels_first_occurrence`: position 3 is the first
occurrence of word index 2 in `[0,1,1,2,3]`. -/
theorem align_labels_first_occurrence_witness :
    (alignLabels true (fun s => (s.length : Int)) ["B-LOC", "I-LOC", "O", "O"]
      [some 0, some 1, some 1, some 2, some 3, none]).getD 3 0 = 1 :=
  align_labels_first_occurrence true (fun s => (s.length : Int))
    ["B-LOC", "I-LOC", "O", "O"]
    [some 0, some 1, some 1, some 2, some 3, none] 3 2
    (by decide) (by decide) (by decide) (by decide)

/-! ## Label vocabulary (`get_label_list`, lines 343-349; `label_to_id`,
line 357)

`unique_labels` starts empty and is unioned with `set(label)` for every
label sequence; `list(unique_labels)` followed by `.sort()` is the
ascending (lexicographic, Python's string order) sort of the resulting
set, modelled with `Finset.sort`.  The dictionary comprehension
`{l: i for i, l in enumerate(label_list)}` is modelled as successive
assignments into a map, a later binding overwriting an earlier one. -/

def get_label_list (labels : List (List String)) : List String :=
  (labels.foldl (fun acc l => acc ∪ l.toFinset) (∅ : Finset String)).sort (· ≤ ·)

/-- One dictionary assignment `m[key] = val` per `(val, key)` pair, in
list order. -/
def dictOfPairs (ps : List (Nat × String)) (m : String → Option Nat) :
    String → Option Nat :=
  ps.foldl (fun m p => fun s => if s = p.2 then some p.1 else m s) m

/-- `label_to_id = {l: i for i, l in enumerate(label_list)}` (line 357). -/
def label_to_id (label_list : List String) : String → Option Nat :=
  dictOfPairs label_list.enum (fun _ => none)

theorem dictOfPairs_not_mem (ps : List (Nat × String))
    (m : String → Option Nat) (s : String) (h : ∀ p ∈ ps, p.2 ≠ s) :
    dictOfPairs ps m s = m s := by
  induction ps generalizing m with
  | nil => rfl
  | cons q ps ih =>
    rw [dictOfPairs, List.foldl_cons]
    rw [show (List.foldl (fun m p => fun s => if s = p.2 then some p.1 else m s)
      (fun s => if s = q.2 then some q.1 else m s) ps) =
      dictOfPairs ps (fun s => if s = q.2 then some q.1 else m s) from rfl]
    rw [ih _ (fun p hp => h p (List.mem_cons_of_mem _ hp))]
    exact if_neg (fun hh => h q (List.mem_cons_self q ps) hh.symm)

theorem dictOfPairs_enumFrom_lookup (ll : List String) (hnd : ll.Nodup) :
    ∀ (n : Nat) (m : String → Option Nat) (i : Nat), i < ll.length →
      dictOfPairs (ll.enumFrom n) m (ll.getD i "") = some (n + i) := by
  induction ll with
  | nil => intro n m i h; simp at h
  | cons a ll ih =>
    intro n m i h
    rw [show (a :: ll).enumFrom n = (n, a) :: ll.enumFrom (n + 1) from rfl]
    rw [show dictOfPairs ((n, a) :: ll.enumFrom (n + 1)) m =
      dictOfPairs (ll.enumFrom (n + 1))
        (fun s => if s = a then some n else m s) from rfl]
    cases i with
    | zero =>
      have hnotin : ∀ p ∈ ll.enumFrom (n + 1), p.2 ≠ a := by
        rw [List.forall_mem_enumFrom]
        intro j hj hcon
        exact (List.nodup_cons.mp hnd).1 (hcon ▸ List.getElem_mem hj)
      rw [show (a :: ll).getD 0 "" = a from rfl,
        dictOfPairs_not_mem _ _ _ hnotin]
      simp
    | succ i =>
      have hi : i < ll.length := by simpa using h
      have := ih (List.nodup_cons.mp hnd).2 (n + 1)
        (fun s => if s = a then some n else m s) i hi
      rw [show (a :: ll).getD (i + 1) "" = ll.getD i "" from rfl, this]
      congr 1
      omega

theorem foldl_union_mem (labels : List (List String)) (s : Finset String)
    (x : String) :
    (x ∈ labels.foldl (fun acc l => acc ∪ l.toFinset) s) ↔
      x ∈ s ∨ ∃ l ∈ labels, x ∈ l := by
  induction labels generalizing s with
  | nil => simp
  | cons a labels ih =>
    rw [List.foldl_cons, ih]
    simp [or_assoc]

/-- C3: `get_label_list` returns the lexicographically sorted list of the
distinct tags occurring in the scanned label sequences; `label_to_id`
assigns each tag its index in that sorted order; and the builder is
idempotent and order-stable (re-running it on its own output reproduces
it; determinism holds since the model is a pure function of its input). -/
theorem get_label_list_spec (labels : List (List String)) :
    (get_label_list labels).Sorted (· < ·) ∧
    (∀ x, x ∈ get_label_list labels ↔ ∃ l ∈ labels, x ∈ l) ∧
    (∀ i, i < (get_label_list labels).length →
      label_to_id (get_label_list labels)
        ((get_label_list labels).getD i "") = some i) ∧
    get_label_list [get_label_list labels] = get_label_list labels := by
  refine ⟨Finset.sort_sorted_lt _, ?_, ?_, ?_⟩
  · intro x
    rw [get_label_list, Finset.mem_sort, foldl_union_mem]
    simp
  · intro i h
    have hnd : (get_label_list labels).Nodup := Finset.sort_nodup _ _
    simpa using
      dictOfPairs_enumFrom_lookup (get_label_list labels) hnd 0 (fun _ => none) i h
  · simp only [get_label_list, List.foldl_cons, List.foldl_nil,
      Finset.empty_union]
    rw [Finset.sort_toFinset]

/-- Witness: instantiating `get_label_list_spec` on a concrete training
split (two sequences with overlapping tags, given unsorted). -/
theorem get_label_list_spec_witness :
    label_to_id (get_label_list [["O", "B-LOC"], ["B-LOC", "I-LOC"]])
      ((get_label_list [["O", "B-LOC"], ["B-LOC", "I-LOC"]]).getD 0 "") =
      some 0 := by
  have hmem : "O" ∈ get_label_list [["O", "B-LOC"], ["B-LOC", "I-LOC"]] :=
    ((get_label_list_spec [["O", "B-LOC"], ["B-LOC", "I-LOC"]]).2.1 "O").mpr
      ⟨["O", "B-LOC"], by simp, by simp⟩
  have hlen : 0 < (get_label_list [["O", "B-LOC"], ["B-LOC", "I-LOC"]]).length :=
    List.length_pos.mpr (List.ne_nil_of_mem hmem)
  exact (get_label_list_spec [["O", "B-LOC"], ["B-LOC", "I-LOC"]]).2.2.1 0 hlen

/-! ## Column-name resolution (`main`, lines 327-339)

Selects the token and tag columns of the loaded split.  The Python
positional fallbacks `column_names[0]` / `column_names[1]` can raise on a
too-short column list, so the model returns an `Option`: `none` is the
crashed lookup. -/

def text_column_name (override : Option String) (cols : List String) :
    Option String :=
  match override with
  | some t => some t
  | none => if "tokens" ∈ cols then some "tokens" else cols[0]?

def label_column_name (override : Option String) (task : String)
    (cols : List String) : Option String :=
  match override with
  | some t => some t
  | none =>
    if (task ++ "_tags") ∈ cols then some (task ++ "_tags") else cols[1]?

/-- C4: the token column is the explicit override when set, else
`"tokens"` when present, else column 0; the tag column is the explicit
override when set, else `"<task_name>_tags"` when present, else
column 1. -/
theorem column_resolution (task : String) (cols : List String)
    (t l : String) :
    text_column_name (some t) cols = some t ∧
    ("tokens" ∈ cols → text_column_name none cols = some "tokens") ∧
    ("tokens" ∉ cols → text_column_name none cols = cols[0]?) ∧
    label_column_name (some l) task cols = some l ∧
    ((task ++ "_tags") ∈ cols →
      label_column_name none task cols = some (task ++ "_tags")) ∧
    ((task ++ "_tags") ∉ cols →
      label_column_name none task cols = cols[1]?) := by
  refine ⟨rfl, ?_, ?_, rfl, ?_, ?_⟩
  · intro h; simp [text_column_name, h]
  · intro h; simp [text_column_name, h]
  · intro h; simp [label_column_name, h]
  · intro h; simp [label_column_name, h]

/-- Witness for `column_resolution`: the conventional names win on a
CoNLL-style column list, and the positional fallback fires otherwise. -/
theorem column_resolution_witness :
    text_column_name none ["tokens", "ner_tags"] = some "tokens" ∧
    label_column_name none "ner" ["words", "labels"] = some "labels" := by
  constructor
  · exact (column_resolution "ner" ["tokens", "ner_tags"] "x" "y").2.1
      (by decide)
  · exact (column_resolution "ner" ["words", "labels"] "x" "y").2.2.2.2.2
      (by decide)

/-! ## Metrics reducer, filtering half (`compute_metrics`, lines 684-697)

`predictions` is modelled after the `np.argmax` step (one `Nat` per
position); `labels` are the aligned gold labels (`Int`, `-100` the ignore
sentinel).  The comprehensions
`[[label_list[p] for (p, l) in zip(prediction, label) if l != -100] ...]`
become zip/filter/map. -/

def true_predictions (label_list : List String)
    (predictions : List (List Nat)) (labels : List (List Int)) :
    List (List String) :=
  (predictions.zip labels).map (fun pl =>
    ((pl.1.zip pl.2).filter (fun q => q.2 ≠ -100)).map
      (fun q => label_list.getD q.1 ""))

def true_labels (label_list : List String)
    (predictions : List (List Nat)) (labels : List (List Int)) :
    List (List String) :=
  (predictions.zip labels).map (fun pl =>
    ((pl.1.zip pl.2).filter (fun q => q.2 ≠ -100)).map
      (fun q => label_list.getD q.2.toNat ""))

/-- C5: per example, both output rows are obtained by dropping from the
paired positions exactly those whose gold label is `-100` (so they keep
the surviving positions in order and have equal lengths, the number of
non-sentinel positions); an example whose gold labels are all `-100`
contributes an empty prediction row and an empty reference row. -/
theorem compute_metrics_filter (ll : List String)
    (preds : List (List Nat)) (labs : List (List Int)) (i : Nat)
    (hp : i < preds.length) (hl : i < labs.length) :
    (true_predictions ll preds labs).getD i [] =
      (((preds.getD i []).zip (labs.getD i [])).filter
        (fun q => q.2 ≠ -100)).map (fun q => ll.getD q.1 "") ∧
    (true_labels ll preds labs).getD i [] =
      (((preds.getD i []).zip (labs.getD i [])).filter
        (fun q => q.2 ≠ -100)).map (fun q => ll.getD q.2.toNat "") ∧
    ((true_predictions ll preds labs).getD i []).length =
      ((preds.getD i []).zip (labs.getD i [])).countP
        (fun q => q.2 ≠ -100) ∧
    ((true_labels ll preds labs).getD i []).length =
      ((preds.getD i []).zip (labs.getD i [])).countP
        (fun q => q.2 ≠ -100) ∧
    ((∀ x ∈ labs.getD i [], x = -100) →
      (true_predictions ll preds labs).getD i [] = [] ∧
      (true_labels ll preds labs).getD i [] = []) := by
  have hz : i < (preds.zip labs).length := by
    rw [List.length_zip]; omega
  have hrow : (preds.zip labs)[i] = (preds.getD i [], labs.getD i []) := by
    rw [List.getElem_zip, List.getD_eq_getElem _ _ hp,
      List.getD_eq_getElem _ _ hl]
  have h1 : (true_predictions ll preds labs).getD i [] =
      (((preds.getD i []).zip (labs.getD i [])).filter
        (fun q => q.2 ≠ -100)).map (fun q => ll.getD q.1 "") := by
    rw [true_predictions, List.getD_eq_getElem _ _ (by simpa using hz),
      List.getElem_map, hrow]
  have h2 : (true_labels ll preds labs).getD i [] =
      (((preds.getD i []).zip (labs.getD i [])).filter
        (fun q => q.2 ≠ -100)).map (fun q => ll.getD q.2.toNat "") := by
    rw [true_labels, List.getD_eq_getElem _ _ (by simpa using hz),
      List.getElem_map, hrow]
  have hall : (∀ x ∈ labs.getD i [], x = -100) →
      ((preds.getD i []).zip (labs.getD i [])).filter
        (fun q => q.2 ≠ -100) = [] := by
    intro h
    rw [List.filter_eq_nil_iff]
    intro q hq
    have : q.2 ∈ labs.getD i [] := (List.of_mem_zip hq).2
    simp [h q.2 this]
  refine ⟨h1, h2, ?_, ?_, ?_⟩
  · rw [h1, List.length_map, ← List.countP_eq_length_filter]
  · rw [h2, List.length_map, ← List.countP_eq_length_filter]
  · intro h
    rw [h1, h2, hall h]
    exact ⟨rfl, rfl⟩

/-- Witness for `compute_metrics_filter`: an example whose gold labels are
all the sentinel yields empty filtered rows. -/
theorem compute_metrics_filter_witness :
    (true_predictions ["O"] [[0, 0]] [[-100, -100]]).getD 0 [] = [] ∧
    (true_labels ["O"] [[0, 0]] [[-100, -100]]).getD 0 [] = [] :=
  (compute_metrics_filter ["O"] [[0, 0]] [[-100, -100]] 0
    (by decide) (by decide)).2.2.2.2 (by decide)

/-! ## Metrics reducer, output shape (`compute_metrics`, lines 697-714)

The external seqeval scorer's result is a dictionary whose values are
either scalars (the `overall_*` entries, read explicitly by the `False`
branch at lines 710-713) or nested per-entity-type dictionaries.  It is
modelled as an insertion-ordered key/value list, polymorphic in the
numeric payload. -/

inductive MVal (α : Type) where
  | scalar (v : α)
  | nested (sub : List (String × α))
deriving DecidableEq

/-- Dictionary read `results[k]` restricted to scalar entries (the only
reads the code performs), with a default standing for the raised lookup
on a missing key. -/
def scalarGet {α : Type} (results : List (String × MVal α)) (dflt : α)
    (k : String) : α :=
  match results.find? (fun kv => kv.1 == k) with
  | some (_, .scalar v) => v
  | _ => dflt

/-- The tail of `compute_metrics`: with `return_entity_level_metrics` the
nested sub-dictionaries are flattened into `<key>_<subkey>` entries and
scalar entries are copied through unchanged; otherwise exactly the four
overall scalars are returned under the names `precision`, `recall`, `f1`,
`accuracy`. -/
def compute_metrics_output {α : Type} (returnEntityLevelMetrics : Bool)
    (dflt : α) (results : List (String × MVal α)) : List (String × α) :=
  if returnEntityLevelMetrics then
    results.foldl (fun acc kv =>
      match kv.2 with
      | .nested sub => acc ++ sub.map (fun nv => (kv.1 ++ "_" ++ nv.1, nv.2))
      | .scalar v => acc ++ [(kv.1, v)]) []
  else
    [("precision", scalarGet results dflt "overall_precision"),
     ("recall", scalarGet results dflt "overall_recall"),
     ("f1", scalarGet results dflt "overall_f1"),
     ("accuracy", scalarGet results dflt "overall_accuracy")]

/-- A seqeval-shaped scorer result: one entity type `LOC` plus the four
`overall_*` scalars (the scalar key names are the ones the code itself
reads at lines 710-713). -/
def seqevalResults : List (String × MVal Int) :=
  [("LOC", .nested [("precision", 1), ("recall", 1), ("f1", 1),
      ("number", 2)]),
   ("overall_precision", .scalar 1), ("overall_recall", .scalar 1),
   ("overall_f1", .scalar 1), ("overall_accuracy", .scalar 1)]

/-- C6 counterexample: with `return_entity_level_metrics=True` on a
seqeval-shaped result, the output does NOT contain the key `precision`
(the scalar keys pass through as `overall_precision` etc.), refuting the
claim that the `True` output contains the four keys
`precision`/`recall`/`f1`/`accuracy` plus the expanded ones. -/
theorem compute_metrics_keys_counterexample :
    "precision" ∉ (compute_metrics_output true 0 seqevalResults).map
      Prod.fst ∧
    "LOC_precision" ∈ (compute_metrics_output true 0 seqevalResults).map
      Prod.fst ∧
    "overall_precision" ∈ (compute_metrics_output true 0 seqevalResults).map
      Prod.fst := by
  decide

theorem flatten_foldl_keys {α : Type} (results : List (String × MVal α)) :
    ∀ acc : List (String × α),
      (results.foldl (fun acc kv =>
        match kv.2 with
        | .nested sub =>
          acc ++ sub.map (fun nv => (kv.1 ++ "_" ++ nv.1, nv.2))
        | .scalar v => acc ++ [(kv.1, v)]) acc).map Prod.fst =
      acc.map Prod.fst ++ results.flatMap (fun kv =>
        match kv.2 with
        | .scalar _ => [kv.1]
        | .nested sub => sub.map (fun nv => kv.1 ++ "_" ++ nv.1)) := by
  induction results with
  | nil => intro acc; simp
  | cons kv results ih =>
    intro acc
    rw [List.foldl_cons, List.flatMap_cons]
    cases h : kv.2 with
    | scalar v => simp [h, ih]
    | nested sub => simp [h, ih, Function.comp]

/-- C6 amended: with `return_entity_level_metrics=False` the output keys
are exactly `precision`, `recall`, `f1`, `accuracy`; with `=True` the
output keys are the scorer's scalar keys unchanged (for seqeval,
`overall_precision` etc., the names the `False` branch itself reads)
plus the expanded `<entity>_<metric>` keys of each nested
sub-dictionary, in scorer order. -/
theorem compute_metrics_keys {α : Type} (dflt : α)
    (results : List (String × MVal α)) :
    (compute_metrics_output false dflt results).map Prod.fst =
      ["precision", "recall", "f1", "accuracy"] ∧
    (compute_metrics_output true dflt results).map Prod.fst =
      results.flatMap (fun kv =>
        match kv.2 with
        | .scalar _ => [kv.1]
        | .nested sub => sub.map (fun nv => kv.1 ++ "_" ++ nv.1)) := by
  refine ⟨rfl, ?_⟩
  rw [compute_metrics_output, if_pos rfl, flatten_foldl_keys]
  rfl

/-! ## Meta-embedding freeze loop (`main`, lines 447-449 and 513-515)

After either composer replaces `model.bert.embeddings`, the script walks
`model.bert.named_parameters()` and sets `requires_grad=False` on every
parameter whose name contains the substring `"embedding_"`.  The module's
named parameters are modelled as an ordered `(name, requires_grad)` list
and the in-place loop as the state after it finishes. -/

/-- Whether `pat` occurs at the head of `cs`. -/
def substrAt : List Char → List Char → Bool
  | [], _ => true
  | _ :: _, [] => false
  | p :: ps, c :: cs => p == c && substrAt ps cs

/-- Whether `pat` occurs anywhere in `cs` (Python's `pat in s`). -/
def hasSubstr (pat : List Char) : List Char → Bool
  | [] => substrAt pat []
  | c :: cs => substrAt pat (c :: cs) || hasSubstr pat cs

/-- The loop's condition `"embedding_" in param[0]`. -/
def nameMatchesEmbedding (name : String) : Bool :=
  hasSubstr "embedding_".toList name.toList

/-- State of the named-parameter list after the freeze loop: the
trainability flag is cleared exactly on name matches. -/
def freezeEmbeddingParams (params : List (String × Bool)) :
    List (String × Bool) :=
  params.map (fun p => if nameMatchesEmbedding p.1 then (p.1, false) else p)

/-- C7: after meta-embedding setup, every named parameter whose name
contains `"embedding_"` has `requires_grad = false`, every other
parameter keeps its previous flag, and no name is changed — the decision
depends only on the parameter's own name, never on count or position. -/
theorem freeze_by_name_match (params : List (String × Bool)) (i : Nat)
    (h : i < params.length) :
    (freezeEmbeddingParams params).length = params.length ∧
    ((freezeEmbeddingParams params).getD i ("", true)).1 =
      (params.getD i ("", true)).1 ∧
    (nameMatchesEmbedding (params.getD i ("", true)).1 = true →
      ((freezeEmbeddingParams params).getD i ("", true)).2 = false) ∧
    (nameMatchesEmbedding (params.getD i ("", true)).1 = false →
      ((freezeEmbeddingParams params).getD i ("", true)).2 =
        (params.getD i ("", true)).2) := by
  have hlen : (freezeEmbeddingParams params).length = params.length :=
    List.length_map _ _
  have key : (freezeEmbeddingParams params).getD i ("", true) =
      (if nameMatchesEmbedding (params.getD i ("", true)).1 then
        ((params.getD i ("", true)).1, false)
      else params.getD i ("", true)) := by
    rw [freezeEmbeddingParams,
      List.getD_eq_getElem _ _ (by simpa using h), List.getElem_map,
      List.getD_eq_getElem _ _ h]
  refine ⟨hlen, ?_, ?_, ?_⟩
  · rw [key]
    cases hb : nameMatchesEmbedding (params.getD i ("", true)).1 <;> simp
  · intro hb
    rw [key, if_pos hb]
  · intro hb
    rw [key, if_neg (ne_true_of_eq_false hb)]

/-- Witness for `freeze_by_name_match`: a composer-owned parameter gets
frozen, an encoder parameter keeps its flag. -/
theorem freeze_by_name_match_witness :
    ((freezeEmbeddingParams
      [("embedding_2.word_embeddings.weight", true),
       ("encoder.layer.0.attention.self.query.weight", true)]).getD 0
        ("", true)).2 = false ∧
    ((freezeEmbeddingParams
      [("embedding_2.word_embeddings.weight", true),
       ("encoder.layer.0.attention.self.query.weight", true)]).getD 1
        ("", true)).2 = true := by
  constructor
  · exact (freeze_by_name_match
      [("embedding_2.word_embeddings.weight", true),
       ("encoder.layer.0.attention.self.query.weight", true)] 0
      (by decide)).2.2.1 (by decide)
  · exact (freeze_by_name_match
      [("embedding_2.word_embeddings.weight", true),
       ("encoder.layer.0.attention.self.query.weight", true)] 1
      (by decide)).2.2.2 (by decide)

/-! ## Configuration validation (`__post_init__`, lines 225-235)

`__post_init__` raises when no dataset source is given, then asserts that
`train_file` and `validation_file` (when supplied) have a last
dot-separated component equal to `csv` or `json`.  `test_file` is an
argument of the dataclass but is never inspected here.  Python's
`f.split(".")[-1]` is modelled by `extOf`. -/

/-- The last `sep`-separated segment of `cs` (`"a.b".split(".")[-1]`). -/
def lastSegment (sep : Char) (cs : List Char) : List Char :=
  cs.foldl (fun acc c => if c = sep then [] else acc ++ [c]) []

/-- `f.split(".")[-1]`. -/
def extOf (f : String) : String := String.mk (lastSegment '.' f.data)

/-- One `assert extension in ["csv", "json"]` over an optional file. -/
def checkExt (msg : String) (file : Option String) : Except String Unit :=
  match file with
  | none => Except.ok ()
  | some f =>
    if extOf f ∈ ["csv", "json"] then Except.ok () else Except.error msg

/-- `DataTrainingArguments.__post_init__` (lines 225-235); `_test_file`
is carried to record that the source never validates it. -/
def post_init_check (dataset_name train_file validation_file
    _test_file : Option String) : Except String Unit :=
  if dataset_name = none ∧ train_file = none ∧ validation_file = none then
    Except.error "Need either a dataset name or a training/validation file."
  else
    match checkExt "train_file should be a csv or a json file." train_file with
    | Except.error e => Except.error e
    | Except.ok () =>
      checkExt "validation_file should be a csv or a json file."
        validation_file

/-- C9 counterexample: a configuration whose `test_file` has a `.txt`
extension passes construction — the claimed extension check on the test
file does not exist in the code. -/
theorem test_file_extension_unchecked :
    post_init_check none (some "train.csv") (some "dev.json")
      (some "test.txt") = Except.ok () := rfl

/-- C9 amended: configuration construction succeeds iff a dataset source
is present and the train and validation files, when supplied, have a
`csv`/`json` last dot-segment; the test file is never validated (it is
universally quantified and unconstrained here). -/
theorem post_init_check_ok_iff (dn tf vf tstf : Option String) :
    post_init_check dn tf vf tstf = Except.ok () ↔
      (¬(dn = none ∧ tf = none ∧ vf = none) ∧
       (∀ f, tf = some f → extOf f ∈ ["csv", "json"]) ∧
       (∀ g, vf = some g → extOf g ∈ ["csv", "json"])) := by
  rw [post_init_check]
  by_cases h : dn = none ∧ tf = none ∧ vf = none
  · rw [if_pos h]
    constructor
    · intro hcon; cases hcon
    · rintro ⟨h1, -⟩; exact absurd h h1
  · rw [if_neg h]
    cases tf with
    | none =>
      cases vf with
      | none =>
        dsimp only [checkExt]
        constructor
        · intro _
          refine ⟨h, fun x hx => ?_, fun x hx => ?_⟩
          · cases hx
          · cases hx
        · intro _; rfl
      | some g =>
        dsimp only [checkExt]
        by_cases hg : extOf g ∈ ["csv", "json"]
        · rw [if_pos hg]
          constructor
          · intro _
            refine ⟨h, fun x hx => ?_, fun x hx => ?_⟩
            · cases hx
            · cases hx; exact hg
          · intro _; rfl
        · rw [if_neg hg]
          constructor
          · intro hcon; cases hcon
          · rintro ⟨-, -, hgood⟩
            exact absurd (hgood g rfl) hg
    | some f =>
      dsimp only [checkExt]
      by_cases hf : extOf f ∈ ["csv", "json"]
      · rw [if_pos hf]
        cases vf with
        | none =>
          dsimp only
          constructor
          · intro _
            refine ⟨h, fun x hx => ?_, fun x hx => ?_⟩
            · cases hx; exact hf
            · cases hx
          · intro _; rfl
        | some g =>
          dsimp only
          by_cases hg : extOf g ∈ ["csv", "json"]
          · rw [if_pos hg]
            constructor
            · intro _
              refine ⟨h, fun x hx => ?_, fun x hx => ?_⟩
              · cases hx; exact hf
              · cases hx; exact hg
            · intro _; rfl
          · rw [if_neg hg]
            constructor
            · intro hcon; cases hcon
            · rintro ⟨-, -, hgood⟩
              exact absurd (hgood g rfl) hg
      · rw [if_neg hf]
        dsimp only
        constructor
        · intro hcon; cases hcon
        · rintro ⟨-, hgood, -⟩
          exact absurd (hgood f rfl) hf

/-! ## Ordering of the fatal checks in `main` (lines 302-676)

`main`'s control flow, with every external call abstracted as an
always-succeeding stage, in source order:

* `postInit` — argument parsing runs `__post_init__` (line 251/225);
* `datasetLoad` — lines 302-316; on the local-file path line 315 reads
  `data_args.train_file.split(".")[-1]` unconditionally, so a missing
  `train_file` raises a runtime `AttributeError` here;
* `columnResolve` — lines 320-325 subscript `raw_datasets["train"]` when
  `do_train` else `raw_datasets["validation"]`, a bare `KeyError` when
  that split is absent;
* `modelLoad` — config/tokenizer/model loading, lines 366-519;
* `adapterSetup` — lines 522-575, raising when an adapter load is
  requested without `--train_adapter`;
* `splitTrain`/`splitEval`/`splitPredict` — the descriptive split checks
  at lines 633-635, 648-650 and 663-665.

Presence booleans stand for the `Option` fields and for which splits the
loaded dataset has; file extensions are assumed valid here (they are
handled by `post_init_check` above).  `runMain` returns the list of
completed stages in order, plus the first failure (its stage and
message), if any. -/

inductive Stage where
  | postInit | datasetLoad | columnResolve | modelLoad | adapterSetup
  | splitTrain | splitEval | splitPredict
deriving DecidableEq

structure Cfg where
  hasDatasetName : Bool
  hasTrainFile : Bool
  hasValidationFile : Bool
  doTrain : Bool
  doEval : Bool
  doPredict : Bool
  trainAdapter : Bool
  hasLoadAdapter : Bool
  hasLoadLangAdapter : Bool
  hasTrainSplit : Bool
  hasValSplit : Bool
  hasTestSplit : Bool
deriving DecidableEq

def runMain (c : Cfg) : List Stage × Option (Stage × String) :=
  if !c.hasDatasetName && !c.hasTrainFile && !c.hasValidationFile then
    ([], some (.postInit,
      "Need either a dataset name or a training/validation file."))
  else if !c.hasDatasetName && !c.hasTrainFile then
    ([.postInit], some (.datasetLoad,
      "AttributeError: NoneType object has no attribute split"))
  else if (c.doTrain && !c.hasTrainSplit) ||
      (!c.doTrain && !c.hasValSplit) then
    ([.postInit, .datasetLoad], some (.columnResolve, "KeyError"))
  else if !c.trainAdapter && (c.hasLoadAdapter || c.hasLoadLangAdapter) then
    ([.postInit, .datasetLoad, .columnResolve, .modelLoad],
      some (.adapterSetup,
        "Adapters can only be loaded in adapters training mode.Use --train_adapter to enable adapter training"))
  else if c.doTrain && !c.hasTrainSplit then
    ([.postInit, .datasetLoad, .columnResolve, .modelLoad, .adapterSetup],
      some (.splitTrain, "--do_train requires a train dataset"))
  else if c.doEval && !c.hasValSplit then
    ([.postInit, .datasetLoad, .columnResolve, .modelLoad, .adapterSetup,
      .splitTrain],
      some (.splitEval, "--do_eval requires a validation dataset"))
  else if c.doPredict && !c.hasTestSplit then
    ([.postInit, .datasetLoad, .columnResolve, .modelLoad, .adapterSetup,
      .splitTrain, .splitEval],
      some (.splitPredict, "--do_predict requires a test dataset"))
  else
    ([.postInit, .datasetLoad, .columnResolve, .modelLoad, .adapterSetup,
      .splitTrain, .splitEval, .splitPredict], none)

/-- C8 counterexample: a `--do_predict` configuration with no test split
reaches its descriptive error only at the split check, after the model
has been loaded — refuting the claim that all three configuration errors
precede model loading. -/
theorem config_error_after_model_load :
    (runMain ⟨true, false, false, false, false, true, false, false, false,
      true, true, false⟩).2 =
      some (Stage.splitPredict, "--do_predict requires a test dataset") ∧
    Stage.modelLoad ∈ (runMain ⟨true, false, false, false, false, true,
      false, false, false, true, true, false⟩).1 := by
  constructor
  · rfl
  · show Stage.modelLoad ∈ [Stage.postInit, Stage.datasetLoad,
      Stage.columnResolve, Stage.modelLoad, Stage.adapterSetup,
      Stage.splitTrain, Stage.splitEval]
    decide

/-- C8 amended: each configuration error carries its descriptive message,
but only the no-dataset-source error precedes model loading (it fires at
configuration construction); the adapter-load-without-training error and
the missing-split errors fire after the model is loaded (and before any
training runs); moreover a missing train split under `do_train`, or a
missing validation split without `do_train`, aborts even earlier, at
column resolution with a bare `KeyError`, before the descriptive split
check is reached. -/
theorem config_error_ordering :
    (∀ c : Cfg, c.hasDatasetName = false → c.hasTrainFile = false →
      c.hasValidationFile = false →
      runMain c = ([], some (Stage.postInit,
        "Need either a dataset name or a training/validation file.")) ∧
      Stage.modelLoad ∉ (runMain c).1) ∧
    (∀ c : Cfg, (c.hasDatasetName = true ∨ c.hasTrainFile = true) →
      (c.doTrain = true → c.hasTrainSplit = true) →
      (c.doTrain = false → c.hasValSplit = true) →
      c.trainAdapter = false →
      (c.hasLoadAdapter = true ∨ c.hasLoadLangAdapter = true) →
      (runMain c).2 = some (Stage.adapterSetup,
        "Adapters can only be loaded in adapters training mode.Use --train_adapter to enable adapter training") ∧
      Stage.modelLoad ∈ (runMain c).1) ∧
    (∀ c : Cfg, (c.hasDatasetName = true ∨ c.hasTrainFile = true) →
      c.doTrain = true → c.hasTrainSplit = true →
      (c.trainAdapter = true ∨
        (c.hasLoadAdapter = false ∧ c.hasLoadLangAdapter = false)) →
      c.doEval = true → c.hasValSplit = false →
      (runMain c).2 = some (Stage.splitEval,
        "--do_eval requires a validation dataset") ∧
      Stage.modelLoad ∈ (runMain c).1) ∧
    (∀ c : Cfg, (c.hasDatasetName = true ∨ c.hasTrainFile = true) →
      (c.doTrain = true → c.hasTrainSplit = true) →
      (c.doTrain = false → c.hasValSplit = true) →
      (c.trainAdapter = true ∨
        (c.hasLoadAdapter = false ∧ c.hasLoadLangAdapter = false)) →
      (c.doEval = true → c.hasValSplit = true) →
      c.doPredict = true → c.hasTestSplit = false →
      (runMain c).2 = some (Stage.splitPredict,
        "--do_predict requires a test dataset") ∧
      Stage.modelLoad ∈ (runMain c).1) ∧
    (∀ c : Cfg, (c.hasDatasetName = true ∨ c.hasTrainFile = true) →
      ((c.doTrain = true ∧ c.hasTrainSplit = false) ∨
        (c.doTrain = false ∧ c.hasValSplit = false)) →
      runMain c = ([Stage.postInit, Stage.datasetLoad],
        some (Stage.columnResolve, "KeyError")) ∧
      Stage.modelLoad ∉ (runMain c).1) := by
  refine ⟨?_, ?_, ?_, ?_, ?_⟩
  · intro c h1 h2 h3
    constructor <;> simp [runMain, h1, h2, h3]
  · intro c hsrc htr hval hta hload
    cases hdt : c.doTrain <;> rcases hsrc with h1 | h1 <;>
      rcases hload with h5 | h5 <;>
      simp [runMain, h1, h5, hta, hdt, htr, hval]
  · intro c hsrc hdt hts hadapter hde hvs
    rcases hsrc with h1 | h1 <;>
      rcases hadapter with h4 | ⟨h4, h4l⟩ <;>
      simp [runMain, h1, h4, hdt, hts, hde, hvs]
    all_goals simp [h4l]
  · intro c hsrc htr hval hadapter heval hdp hts
    cases hdt : c.doTrain <;> cases hde : c.doEval <;>
      rcases hsrc with h1 | h1 <;>
      rcases hadapter with h4 | ⟨h4, h4l⟩ <;>
      simp [runMain, h1, h4, hdt, hde, hdp, hts, htr, hval, heval]
    all_goals simp [h4l]
  · intro c hsrc hsplit
    rcases hsrc with h1 | h1 <;> rcases hsplit with ⟨h2, h3⟩ | ⟨h2, h3⟩ <;>
      constructor <;> simp [runMain, h1, h2, h3]

/-- Witness for `config_error_ordering`: the no-source error at an
all-empty configuration, and the adapter error on a load-without-training
configuration that has every split. -/
theorem config_error_ordering_witness :
    runMain ⟨false, false, false, false, false, false, false, false, false,
      false, false, false⟩ = ([], some (Stage.postInit,
        "Need either a dataset name or a training/validation file.")) ∧
    (runMain ⟨true, false, false, true, false, false, false, true, false,
      true, true, true⟩).2 = some (Stage.adapterSetup,
        "Adapters can only be loaded in adapters training mode.Use --train_adapter to enable adapter training") := by
  constructor
  · exact (config_error_ordering.1 _ rfl rfl rfl).1
  · exact (config_error_ordering.2.1 _ (Or.inl rfl) (fun _ => rfl)
      (fun h => by cases h) rfl (Or.inl rfl)).1

/-- C10: a configuration with only a validation file passes construction
(the `__post_init__` guard accepts it), yet the local-file loading path
computes `data_args.train_file.split(".")[-1]` unconditionally, so the
run fails with a runtime error on the `None` train file at dataset
loading, before the validation file is ever used and before any model
loading. -/
theorem validation_only_config_crashes_loading :
    post_init_check none none (some "dev.json") none = Except.ok () ∧
    ∀ c : Cfg, c.hasDatasetName = false → c.hasTrainFile = false →
      c.hasValidationFile = true →
      runMain c = ([Stage.postInit], some (Stage.datasetLoad,
        "AttributeError: NoneType object has no attribute split")) ∧
      Stage.modelLoad ∉ (runMain c).1 := by
  refine ⟨rfl, ?_⟩
  intro c h1 h2 h3
  constructor <;> simp [runMain, h1, h2, h3]

/-- Witness for `validation_only_config_crashes_loading` at a concrete
validation-only configuration. -/
theorem validation_only_config_crashes_loading_witness :
    runMain ⟨false, false, true, false, true, false, false, false, false,
      false, true, false⟩ = ([Stage.postInit], some (Stage.datasetLoad,
        "AttributeError: NoneType object has no attribute split")) :=
  (validation_only_config_crashes_loading.2 _ rfl rfl rfl).1

end RunNer
